import Mathlib

/-
Verification model of busboy-async (src/src/busboy-async.ts).

The file under verification contains two revisions of the same module,
separated by a document marker: the current revision (lines 1-161, class
BusboyAsync with a private bbError slot) and a superseded revision
(lines 162-313, no error slot in the generator).  Definitions below are
a shallow embedding of both where the claims need them; the suffixes
_v1 and _v2 name the current and the superseded revision respectively.

The generator busboyEvents and the parser are bridged through three
pieces of state mutated only inside synchronous callback invocations:
the pending queue bbEvents, the terminal flag bbEnd, and the error slot
this.bbError (set by the catch attached in feedBusboy).  We model the
parser as an opaque emitter of a trace of emissions (the multipart
parsing algorithm itself is an external collaborator).  Cooperative
interleaving is modelled by a schedule: a list of emission batches, one
batch applied at each suspension point of the generator loop (the
setImmediate await when the queue is empty, or the suspension at a
yield).  This covers every interleaving of pump progress and consumer
progress of the single-threaded event loop.
-/

namespace BusboyAsync

/-- Which structural limit was exceeded (LimitEvent.limitName, line 29). -/
inductive LimitName where
  | parts
  | files
  | fields
  deriving DecidableEq

/-- busboy.FieldInfo fields copied by the field handler (lines 61-71). -/
structure FieldInfo where
  encoding : String
  mimeType : String
  nameTruncated : Bool
  valueTruncated : Bool
  deriving DecidableEq

/-- busboy.FileInfo fields copied by the file handler (lines 50-59). -/
structure FileInfo where
  filename : String
  encoding : String
  mimeType : String
  deriving DecidableEq

/-- The discriminated union FieldEvent | FileEvent | LimitEvent
(lines 5-32).  The file stream handle is opaque and modelled by a
numeric identity. -/
inductive BusboyAsyncEvent where
  | field (fieldName fieldValue : String) (info : FieldInfo)
  | file (fieldName : String) (info : FileInfo) (fileStream : Nat)
  | limit (limitName : LimitName)
  deriving DecidableEq

/-- One emission of the underlying parser, as observed by the handlers
registered on this.bb: the five data events (file, field, partsLimit,
filesLimit, fieldsLimit), the finish event, and an error (faults are
identified by a numeric identity so that preservation of the original
fault object is expressible as equality). -/
inductive Emission where
  | file (fieldName : String) (info : FileInfo) (fileStream : Nat)
  | field (fieldName fieldValue : String) (info : FieldInfo)
  | partsLimit
  | filesLimit
  | fieldsLimit
  | finish
  | error (e : Nat)
  deriving DecidableEq

/-- The event record each data handler appends to the queue, per the
handler bodies at lines 50-92; finish and error are not data events and
enqueue nothing. -/
def handlerEvent : Emission → Option BusboyAsyncEvent
  | .file fieldName info fileStream => some (.file fieldName info fileStream)
  | .field fieldName fieldValue info => some (.field fieldName fieldValue info)
  | .partsLimit => some (.limit .parts)
  | .filesLimit => some (.limit .files)
  | .fieldsLimit => some (.limit .fields)
  | .finish => none
  | .error _ => none

/-- Emissions handled by the five data handlers (everything except
finish and error). -/
def Emission.isPlain : Emission → Bool
  | .finish => false
  | .error _ => false
  | _ => true

/-- The events of a parser trace, in emission order. -/
def eventsOf (trace : List Emission) : List BusboyAsyncEvent :=
  trace.filterMap handlerEvent

/-- The bridge state read by the consumption loop each iteration:
the pending queue bbEvents (line 46), the terminal flag bbEnd
(line 48), and the captured-error slot this.bbError (line 37). -/
structure BridgeState where
  bbEvents : List BusboyAsyncEvent
  bbEnd : Bool
  bbError : Option Nat
  deriving DecidableEq

/-- Effect of one parser emission on the bridge state, per the handlers
registered at lines 50-96 (data handlers push at the tail, the finish
handler sets bbEnd) and the catch attached at lines 154-157 (the first
rejection of the feed promise stores the fault in this.bbError; a
promise settles at most once, so once bbEnd is set by finish or a fault
is already stored, a later error event can no longer settle it and the
slot is left unchanged). -/
def applyEmission (s : BridgeState) : Emission → BridgeState
  | .file fieldName info fileStream =>
      { s with bbEvents := s.bbEvents ++ [.file fieldName info fileStream] }
  | .field fieldName fieldValue info =>
      { s with bbEvents := s.bbEvents ++ [.field fieldName fieldValue info] }
  | .partsLimit => { s with bbEvents := s.bbEvents ++ [.limit .parts] }
  | .filesLimit => { s with bbEvents := s.bbEvents ++ [.limit .files] }
  | .fieldsLimit => { s with bbEvents := s.bbEvents ++ [.limit .fields] }
  | .finish => { s with bbEnd := true }
  | .error e =>
      if s.bbEnd = false ∧ s.bbError = none then { s with bbError := some e } else s

/-- Pump progress during one suspension of the generator: the batch of
emissions delivered while the generator is parked is applied in order
by the synchronous handlers. -/
def pumpBatch (s : BridgeState) (batch : List Emission) : BridgeState :=
  batch.foldl applyEmission s

/-- Outcome of running the generator loop against a finite schedule:
still looping when the schedule is exhausted, returned normally, or
terminated by throwing the captured error (line 107-108). -/
inductive GenResult where
  | running (s : BridgeState) (out : List BusboyAsyncEvent)
  | done (out : List BusboyAsyncEvent)
  | thrown (out : List BusboyAsyncEvent) (e : Nat)
  deriving DecidableEq

/-- Exit of the while loop (lines 106-108): if this.bbError is set the
original error object is thrown, otherwise the generator returns. -/
def genExit (s : BridgeState) (out : List BusboyAsyncEvent) : GenResult :=
  match s.bbError with
  | some e => .thrown out e
  | none => .done out

/-- The consumption loop of busboyEvents (lines 98-108).  Each
iteration re-checks the condition (not bbEnd and no bbError); if it
holds and the queue is empty the generator awaits a setImmediate tick,
and if the queue is non-empty it removes and yields the head without
suspending further that cycle.  Either way control returns to the
scheduler, so the next batch of the schedule is applied before the next
iteration.  When the condition fails the loop exits and the generator
throws the captured error or returns. -/
def genRun : List (List Emission) → BridgeState → List BusboyAsyncEvent → GenResult
  | [], s, out =>
      if s.bbEnd = false ∧ s.bbError = none then .running s out else genExit s out
  | batch :: rest, s, out =>
      if s.bbEnd = false ∧ s.bbError = none then
        match s.bbEvents with
        | [] => genRun rest (pumpBatch s batch) out
        | ev :: q => genRun rest (pumpBatch ⟨q, s.bbEnd, s.bbError⟩ batch) (out ++ [ev])
      else genExit s out

/-- Effect of emissions delivered after feedBusboy wired the parser
(lines 113-140) but before the generator body first runs: busboyEvents
is an async generator, so none of the handlers of lines 50-96 exist yet
and data events reach no listener; only the promise handlers of
feedBusboy are active, so the first settling emission decides whether
the catch of lines 154-157 will store a fault.  A finish settles the
feed promise successfully, after which no later error can be stored. -/
def preError : List Emission → Option Nat
  | [] => none
  | .finish :: _ => none
  | .error e :: _ => some e
  | _ :: rest => preError rest

/-- A full run: emissions in pre happen before the consumer first
advances the generator (so the queue starts empty and bbEnd false
regardless of pre, and only a captured fault survives into the loop),
then the generator body runs against the schedule. -/
def genRunFull (pre : List Emission) (sched : List (List Emission)) : GenResult :=
  genRun sched ⟨[], false, preError pre⟩ []

/-- A schedule delivering each emission in its own scheduler turn, with
an idle turn after it: the generator drains the queue between any two
emissions.  Used to exhibit complete in-order delivery. -/
def pairSched : List Emission → List (List Emission)
  | [] => []
  | e :: rest => [e] :: [] :: pairSched rest

/-- The parser emission announcing each structural limit, as subscribed
at lines 73-92. -/
def limitEmission : LimitName → Emission
  | .parts => .partsLimit
  | .files => .filesLimit
  | .fields => .fieldsLimit

/-- Settlement of a promise: resolved with no value (void), resolved
with an error value, or rejected with an error. -/
inductive Settlement where
  | resolvedVoid
  | resolvedErr (e : Nat)
  | rejected (e : Nat)
  deriving DecidableEq

/-- State of the feed operation: destruction flags of the source stream
and of the busboy stream, and the settlement of the executor promise
(none while pending; a promise settles at most once). -/
structure FeedState where
  srcDestroyed : Bool
  bbDestroyed : Bool
  settled : Option Settlement
  deriving DecidableEq

/-- Initial feed state: both streams live, promise pending. -/
def initFeed : FeedState := ⟨false, false, none⟩

/-- First settlement wins; later calls to the executor callbacks are
ignored (promise semantics). -/
def settleOnce (fs : FeedState) (r : Settlement) : FeedState :=
  if fs.settled = none then { fs with settled := some r } else fs

/-- Signals observed by feedBusboy during the pump: an error event of
the source stream, an error event of the busboy stream, or the finish
of the busboy stream. -/
inductive FeedSig where
  | srcError (e : Nat)
  | bbErrorEvt (e : Nat)
  | bbFinish
  deriving DecidableEq

/-- One signal processed by the current revision of feedBusboy
(lines 113-140).  On a source error (Node streams emit error only as
part of their own destruction, so the source is destroyed) the handler
of lines 115-129 destroys the busboy stream with that error unless it
is already destroyed; destroy with an error makes the stream emit that
error, so the handler of lines 132-134 rejects the promise with it.
On a busboy error the promise is rejected (lines 132-134) and the
errored stream is destroyed by its own error path; nothing in this
revision destroys the source stream in that case (pipe merely unpipes
on a destination error).  On finish the promise is resolved
(lines 135-137). -/
def feedStep_v1 (fs : FeedState) : FeedSig → FeedState
  | .srcError e =>
      let fs' := { fs with srcDestroyed := true }
      if fs'.bbDestroyed then fs'
      else settleOnce { fs' with bbDestroyed := true } (.rejected e)
  | .bbErrorEvt e => settleOnce { fs with bbDestroyed := true } (.rejected e)
  | .bbFinish => settleOnce fs .resolvedVoid

/-- One signal processed by the superseded revision of feedBusboy
(lines 267-298): on an error of either stream it rejects the promise
and explicitly destroys both streams (lines 268-292); re-entrant error
events of the now-destroyed peers find both destruction guards already
satisfied and the promise settled, so they change nothing.  On finish
it resolves (lines 279-281 and 293-295). -/
def feedStep_v2 (fs : FeedState) : FeedSig → FeedState
  | .srcError e =>
      settleOnce { fs with srcDestroyed := true, bbDestroyed := true } (.rejected e)
  | .bbErrorEvt e =>
      settleOnce { fs with srcDestroyed := true, bbDestroyed := true } (.rejected e)
  | .bbFinish => settleOnce fs .resolvedVoid

/-- Run of the current revision of the pump over its signals. -/
def feedRun_v1 (sigs : List FeedSig) : FeedState :=
  sigs.foldl feedStep_v1 initFeed

/-- Run of the superseded revision of the pump over its signals. -/
def feedRun_v2 (sigs : List FeedSig) : FeedState :=
  sigs.foldl feedStep_v2 initFeed

/-- The bridge error slot after the pump: the catch attached at
lines 154-157 stores the rejection reason of the feed promise into
this.bbError; a resolved or pending promise stores nothing. -/
def feedErrorSlot (fs : FeedState) : Option Nat :=
  match fs.settled with
  | some (.rejected e) => some e
  | _ => none

/-- The promise derived by attaching a catch handler that maps a
rejection to a resolution carrying the error value (line 157, and
lines 309-311 of the superseded revision). -/
def caughtSettlement : Option Settlement → Option Settlement
  | some (.rejected e) => some (.resolvedErr e)
  | x => x

/-- What the current revision returns to the caller: line 159 returns
bbDataFeed itself, the executor promise, not the promise derived by the
catch of lines 154-157. -/
def feedReturn_v1 (sigs : List FeedSig) : Option Settlement :=
  (feedRun_v1 sigs).settled

/-- What the superseded revision returns to the caller: lines 267-311
return the promise chained through the catch, which converts any
rejection into a resolution carrying the error. -/
def feedReturn_v2 (sigs : List FeedSig) : Option Settlement :=
  caughtSettlement (feedRun_v2 sigs).settled

/-- Flow mode of a Node readable stream: paused (manual pull via read)
or flowing (data is pushed by the stream via data events). -/
inductive FlowMode where
  | paused
  | flowing
  deriving DecidableEq

/-- Node stream semantics: Readable.pipe switches the piped source into
flowing mode (with internal pause and resume around destination
saturation, but the mode set on the source is flowing, not paused). -/
def pipeFlow (_m : FlowMode) : FlowMode := .flowing

/-- Node stream semantics: Readable.resume explicitly switches the
stream into flowing mode. -/
def resumeFlow (_m : FlowMode) : FlowMode := .flowing

/-- Effect of the current revision of feedBusboy on the flow mode of
the source: line 139 pipes the source into the busboy stream. -/
def feedFlowSetup_v1 (m : FlowMode) : FlowMode := pipeFlow m

/-- Effect of the superseded revision on the flow mode of the source:
line 283 pipes it and line 297 additionally calls resume on it. -/
def feedFlowSetup_v2 (m : FlowMode) : FlowMode := resumeFlow (pipeFlow m)

/-- A concrete FieldInfo used in closed statements. -/
def sampleFieldInfo : FieldInfo := ⟨"7bit", "text/plain", false, false⟩

lemma plain_handler (e : Emission) (hp : e.isPlain = true) :
    ∃ ev, handlerEvent e = some ev := by
  cases e <;> first
    | exact ⟨_, rfl⟩
    | simp [Emission.isPlain] at hp

lemma applyEmission_plain_nil (e : Emission) (ev : BusboyAsyncEvent)
    (h : handlerEvent e = some ev) :
    applyEmission ⟨[], false, none⟩ e = ⟨[ev], false, none⟩ := by
  cases e <;> simp [handlerEvent] at h <;> simp [applyEmission, ← h]

lemma genRun_pairSched (body : List Emission) :
    ∀ out : List BusboyAsyncEvent, (∀ e ∈ body, e.isPlain = true) →
    genRun (pairSched body ++ [[Emission.finish]]) ⟨[], false, none⟩ out
      = .done (out ++ eventsOf body) := by
  induction body with
  | nil =>
      intro out _
      have h1 : genRun (pairSched [] ++ [[Emission.finish]]) ⟨[], false, none⟩ out
          = .done out := rfl
      rw [h1]
      simp [eventsOf]
  | cons e rest ih =>
      intro out h
      have hp : e.isPlain = true := h e (List.mem_cons_self e rest)
      obtain ⟨ev, hev⟩ := plain_handler e hp
      have h1 : genRun (pairSched (e :: rest) ++ [[Emission.finish]]) ⟨[], false, none⟩ out
          = genRun ([] :: (pairSched rest ++ [[Emission.finish]]))
              (applyEmission ⟨[], false, none⟩ e) out := rfl
      rw [h1, applyEmission_plain_nil e ev hev]
      have h2 : genRun ([] :: (pairSched rest ++ [[Emission.finish]])) ⟨[ev], false, none⟩ out
          = genRun (pairSched rest ++ [[Emission.finish]]) ⟨[], false, none⟩ (out ++ [ev]) := rfl
      rw [h2, ih (out ++ [ev]) (fun x hx => h x (List.mem_cons_of_mem e hx))]
      simp [eventsOf, List.filterMap_cons, hev]

lemma preError_plain (pre : List Emission) (h : ∀ e ∈ pre, e.isPlain = true) :
    preError pre = none := by
  induction pre with
  | nil => rfl
  | cons e rest ih =>
      have hp : e.isPlain = true := h e (List.mem_cons_self e rest)
      have hrest := ih (fun x hx => h x (List.mem_cons_of_mem e hx))
      cases e <;> simp [Emission.isPlain] at hp <;> simpa [preError] using hrest

lemma feedStep_v1_fix (fs : FeedState) (hs : fs.srcDestroyed = true)
    (hb : fs.bbDestroyed = true) (hset : fs.settled ≠ none) (sig : FeedSig) :
    feedStep_v1 fs sig = fs := by
  cases sig <;>
    simp [feedStep_v1, settleOnce, hs, hb, hset] <;>
    cases fs <;> simp_all

lemma feedRun_v1_fix (rest : List FeedSig) (fs : FeedState) (hs : fs.srcDestroyed = true)
    (hb : fs.bbDestroyed = true) (hset : fs.settled ≠ none) :
    List.foldl feedStep_v1 fs rest = fs := by
  induction rest with
  | nil => rfl
  | cons sig rest ih =>
      rw [List.foldl_cons, feedStep_v1_fix fs hs hb hset sig, ih]

/-- C1: the claim states that for every valid multipart body the yielded
sequence equals the emitted field, file and limit events with no event
dropped.  The code violates this: the loop condition of line 98 checks
the terminal flag before looking at the queue, so an event that is
still queued when finish is observed is silently dropped.  Concretely,
when the parser emits one field event and then finish during a single
suspension of the generator (one scheduler turn), the generator ends
normally having yielded nothing, although the trace carries one field
event. -/
theorem busboyEvents_drops_queued_events_at_finish :
    genRunFull [] [[Emission.field "a" "1" sampleFieldInfo, Emission.finish]]
      = .done []
    ∧ eventsOf [Emission.field "a" "1" sampleFieldInfo, Emission.finish]
      = [BusboyAsyncEvent.field "a" "1" sampleFieldInfo] := by
  exact ⟨rfl, rfl⟩

/-- C2: a fault captured during the pump is stored at most once in the
error slot (a settled promise never re-fires the catch, so a stored
fault is never overwritten), the capture itself only mutates the slot
(queue and terminal flag untouched, nothing thrown at capture time),
and the exact original error is thrown to the consumer at the next
attempt to advance the sequence. -/
theorem fault_captured_once_thrown_at_next_advance (s : BridgeState) (e : Nat) :
    ((applyEmission s (.error e)).bbEvents = s.bbEvents
      ∧ (applyEmission s (.error e)).bbEnd = s.bbEnd)
    ∧ (s.bbEnd = false → s.bbError = none →
        (applyEmission s (.error e)).bbError = some e)
    ∧ (∀ em, s.bbError = some e → (applyEmission s em).bbError = some e)
    ∧ (∀ sched out, s.bbError = some e → genRun sched s out = .thrown out e) := by
  refine ⟨⟨?_, ?_⟩, ?_, ?_, ?_⟩
  · simp only [applyEmission]; split <;> rfl
  · simp only [applyEmission]; split <;> rfl
  · intro h1 h2; simp [applyEmission, h1, h2]
  · intro em h; cases em <;> simp [applyEmission, h]
  · intro sched out h; cases sched <;> simp [genRun, genExit, h]

/-- Witness for C2 at concrete inputs. -/
theorem fault_captured_once_thrown_at_next_advance_witness :
    (applyEmission ⟨[], false, none⟩ (.error 5)).bbError = some 5
    ∧ (applyEmission ⟨[], false, some 5⟩ .finish).bbError = some 5
    ∧ genRun [[]] ⟨[], false, some 5⟩ [] = .thrown [] 5 := by
  exact ⟨(fault_captured_once_thrown_at_next_advance ⟨[], false, none⟩ 5).2.1 rfl rfl,
    (fault_captured_once_thrown_at_next_advance ⟨[], false, some 5⟩ 5).2.2.1 .finish rfl,
    (fault_captured_once_thrown_at_next_advance ⟨[], false, some 5⟩ 5).2.2.2 [[]] [] rfl⟩

/-- C3: the claim states that the promise returned by feedBusboy
resolves (never rejects) on a fault, with the fault as the resolved
value.  The current revision violates this: line 159 returns the
executor promise bbDataFeed itself, which the fault rejects; the
promise derived by the catch of line 157, which does resolve with the
fault as documented by the comment of lines 142-152 and by the README,
is discarded.  The superseded revision returned the chained promise and
satisfied the claim. -/
theorem feedBusboy_returned_promise_rejects_on_fault :
    feedReturn_v1 [.bbErrorEvt 7] = some (.rejected 7)
    ∧ caughtSettlement (feedReturn_v1 [.bbErrorEvt 7]) = some (.resolvedErr 7)
    ∧ feedErrorSlot (feedRun_v1 [.bbErrorEvt 7]) = some 7
    ∧ feedReturn_v2 [.bbErrorEvt 7] = some (.resolvedErr 7) := by
  exact ⟨rfl, rfl, rfl, rfl⟩

/-- C4: the sequence-advance operation, characterized per iteration.
While the queue is empty and neither terminal flag nor error slot is
set, the iteration suspends (letting the pump apply the next batch) and
re-checks; while the loop runs, a non-empty queue makes it remove and
return the head immediately; once the terminal flag is set with an
empty queue and no error, the sequence ends with no more items for any
further schedule; once an error is captured, the next request ends the
sequence by throwing exactly that error. -/
theorem sequence_advance_step_behavior (s : BridgeState) (out : List BusboyAsyncEvent) :
    (∀ batch rest, s.bbEnd = false → s.bbError = none → s.bbEvents = [] →
        genRun (batch :: rest) s out = genRun rest (pumpBatch s batch) out)
    ∧ (∀ batch rest ev q, s.bbEnd = false → s.bbError = none → s.bbEvents = ev :: q →
        genRun (batch :: rest) s out
          = genRun rest (pumpBatch ⟨q, false, none⟩ batch) (out ++ [ev]))
    ∧ (∀ sched, s.bbEvents = [] → s.bbEnd = true → s.bbError = none →
        genRun sched s out = .done out)
    ∧ (∀ sched e, s.bbError = some e → genRun sched s out = .thrown out e) := by
  refine ⟨?_, ?_, ?_, ?_⟩
  · intro batch rest h1 h2 h3; simp [genRun, h1, h2, h3]
  · intro batch rest ev q h1 h2 h3; simp [genRun, h1, h2, h3]
  · intro sched h1 h2 h3; cases sched <;> simp [genRun, genExit, h2, h3]
  · intro sched e h; cases sched <;> simp [genRun, genExit, h]

/-- Witness for C4 at concrete inputs. -/
theorem sequence_advance_step_behavior_witness :
    genRun [[]] ⟨[], false, none⟩ [] = genRun [] (pumpBatch ⟨[], false, none⟩ []) []
    ∧ genRun [[]] ⟨[BusboyAsyncEvent.limit .parts], false, none⟩ []
        = genRun [] (pumpBatch ⟨[], false, none⟩ []) [BusboyAsyncEvent.limit .parts]
    ∧ genRun [[]] ⟨[], true, none⟩ [] = .done []
    ∧ genRun [] ⟨[], false, some 3⟩ [] = .thrown [] 3 := by
  exact ⟨(sequence_advance_step_behavior ⟨[], false, none⟩ []).1 [] [] rfl rfl rfl,
    (sequence_advance_step_behavior ⟨[BusboyAsyncEvent.limit .parts], false, none⟩ []).2.1
      [] [] (BusboyAsyncEvent.limit .parts) [] rfl rfl rfl,
    (sequence_advance_step_behavior ⟨[], true, none⟩ []).2.2.1 [[]] rfl rfl rfl,
    (sequence_advance_step_behavior ⟨[], false, some 3⟩ []).2.2.2 [] 3 rfl⟩

/-- C5 counterexample: the claim states that every fault reported by
either side propagates destruction to both source and parser.  In the
current revision a fault reported by the parser rejects the promise
(lines 132-134) but no code path destroys the source stream, so after a
parser fault the source is still live although the fault was captured. -/
theorem parser_fault_leaves_source_alive :
    (feedRun_v1 [.bbErrorEvt 5]).srcDestroyed = false
    ∧ (feedRun_v1 [.bbErrorEvt 5]).settled = some (.rejected 5) := by
  exact ⟨rfl, rfl⟩

/-- C5 amended: for every fault reported by the source stream
mid-stream, both the source (destroyed by its own error path) and the
parser (destroyed by the handler of lines 127-128) end up destroyed,
the settlement captures exactly that fault, and the bridge error slot
stores it, whatever signals follow; the superseded revision moreover
destroyed both streams on a fault of either side. -/
theorem source_fault_destroys_both_captures_fault (e : Nat) (rest : List FeedSig) :
    (feedRun_v1 (.srcError e :: rest)).srcDestroyed = true
    ∧ (feedRun_v1 (.srcError e :: rest)).bbDestroyed = true
    ∧ (feedRun_v1 (.srcError e :: rest)).settled = some (.rejected e)
    ∧ feedErrorSlot (feedRun_v1 (.srcError e :: rest)) = some e
    ∧ (feedRun_v2 [.srcError e]).srcDestroyed = true
    ∧ (feedRun_v2 [.srcError e]).bbDestroyed = true
    ∧ (feedRun_v2 [.bbErrorEvt e]).srcDestroyed = true
    ∧ (feedRun_v2 [.bbErrorEvt e]).bbDestroyed = true := by
  have hstep : feedStep_v1 initFeed (.srcError e)
      = ⟨true, true, some (.rejected e)⟩ := rfl
  have hrun : feedRun_v1 (.srcError e :: rest) = ⟨true, true, some (.rejected e)⟩ := by
    show List.foldl feedStep_v1 initFeed (.srcError e :: rest) = _
    rw [List.foldl_cons, hstep,
      feedRun_v1_fix rest ⟨true, true, some (.rejected e)⟩ rfl rfl (by simp)]
  refine ⟨?_, ?_, ?_, ?_, rfl, rfl, rfl, rfl⟩ <;> simp [hrun, feedErrorSlot]

/-- C6 counterexample: the claim states that the pump places the source
in a non-automatic (paused, manual pull) flow mode.  Both revisions do
the opposite: line 139 pipes the source into the parser, which switches
the source into flowing mode, and the superseded revision even calls
resume on it (line 297); a source that was paused before feedBusboy is
flowing afterwards. -/
theorem feed_setup_leaves_source_flowing :
    feedFlowSetup_v1 .paused = .flowing ∧ FlowMode.flowing ≠ FlowMode.paused := by
  exact ⟨rfl, by decide⟩

/-- C6 amended: feedBusboy attaches the source to the parser with pipe
(plus resume in the superseded revision), so after the setup the source
is in automatic flowing mode regardless of its prior mode; bytes are
pushed under the built-in backpressure of pipe rather than pulled
explicitly by a manual read loop. -/
theorem feed_setup_flowing_mode (m : FlowMode) :
    feedFlowSetup_v1 m = .flowing ∧ feedFlowSetup_v2 m = .flowing := by
  exact ⟨rfl, rfl⟩

/-- C7: for each of the three structural limits, the corresponding
parser emission makes the handler of lines 73-92 append exactly one
limit event carrying the name of the exceeded limit at the tail of the
queue, leaving the terminal flag and the error slot untouched (so it
neither aborts parsing nor ends the sequence); and in a run where the
limit is detected between other parts, the limit event appears in the
yielded sequence exactly at its point of detection, with the remaining
parts still reported after it. -/
theorem limit_event_single_named_nonterminal (ln : LimitName) :
    (∀ s, applyEmission s (limitEmission ln)
        = ⟨s.bbEvents ++ [.limit ln], s.bbEnd, s.bbError⟩)
    ∧ (∀ body1 body2 out, (∀ e ∈ body1, e.isPlain = true) →
        (∀ e ∈ body2, e.isPlain = true) →
        genRun (pairSched (body1 ++ limitEmission ln :: body2) ++ [[Emission.finish]])
            ⟨[], false, none⟩ out
          = .done (out ++ eventsOf body1 ++ .limit ln :: eventsOf body2)) := by
  constructor
  · cases ln <;> intro s <;> rfl
  · intro body1 body2 out h1 h2
    have hall : ∀ e ∈ body1 ++ limitEmission ln :: body2, e.isPlain = true := by
      intro x hx
      rcases List.mem_append.mp hx with hx1 | hx2
      · exact h1 x hx1
      · rcases List.mem_cons.mp hx2 with hx3 | hx4
        · rw [hx3]; cases ln <;> rfl
        · exact h2 x hx4
    rw [genRun_pairSched (body1 ++ limitEmission ln :: body2) out hall]
    have hev : handlerEvent (limitEmission ln) = some (.limit ln) := by
      cases ln <;> rfl
    simp [eventsOf, List.filterMap_append, List.filterMap_cons, hev]

/-- Witness for C7: two fields, then the fields limit, then a further
field, all yielded in order with exactly one limit event. -/
theorem limit_event_single_named_nonterminal_witness :
    genRun (pairSched [Emission.field "a" "1" sampleFieldInfo,
        Emission.field "b" "2" sampleFieldInfo, Emission.fieldsLimit,
        Emission.field "c" "3" sampleFieldInfo] ++ [[Emission.finish]])
        ⟨[], false, none⟩ []
      = .done [BusboyAsyncEvent.field "a" "1" sampleFieldInfo,
          BusboyAsyncEvent.field "b" "2" sampleFieldInfo,
          BusboyAsyncEvent.limit .fields,
          BusboyAsyncEvent.field "c" "3" sampleFieldInfo] := by
  exact (limit_event_single_named_nonterminal .fields).2
    [Emission.field "a" "1" sampleFieldInfo, Emission.field "b" "2" sampleFieldInfo]
    [Emission.field "c" "3" sampleFieldInfo] [] (by decide) (by decide)

/-- C8: an empty source (the parser emits no part events and signals
completion immediately) yields a generator run that ends via the
terminal flag having yielded nothing, and a settlement that resolves
void, with no stream destroyed and nothing stored in the error slot. -/
theorem empty_source_empty_sequence_clean_settlement :
    genRunFull [] [[Emission.finish]] = .done []
    ∧ feedRun_v1 [.bbFinish] = ⟨false, false, some .resolvedVoid⟩
    ∧ feedErrorSlot (feedRun_v1 [.bbFinish]) = none
    ∧ feedReturn_v1 [.bbFinish] = some .resolvedVoid := by
  exact ⟨rfl, rfl, rfl, rfl⟩

/-- C9: once the sequence has ended normally (terminal flag set, queue
empty, no fault), every further request for an item yields no
additional item: for any continuation of the schedule the run stays
ended with the same output. -/
theorem terminal_sequence_yields_no_further_items (s : BridgeState)
    (sched : List (List Emission)) (out : List BusboyAsyncEvent)
    (_hq : s.bbEvents = []) (hend : s.bbEnd = true) (herr : s.bbError = none) :
    genRun sched s out = .done out := by
  cases sched <;> simp [genRun, genExit, hend, herr]

/-- Witness for C9: an ended sequence stays empty even when the
schedule would deliver further emissions. -/
theorem terminal_sequence_yields_no_further_items_witness :
    genRun [[Emission.field "x" "y" sampleFieldInfo], [Emission.finish]]
      ⟨[], true, none⟩ [] = .done [] := by
  exact terminal_sequence_yields_no_further_items ⟨[], true, none⟩
    [[Emission.field "x" "y" sampleFieldInfo], [Emission.finish]] [] rfl rfl rfl

/-- C10: busboyEvents is an async generator, so the handlers of
lines 50-96 are registered only when its body first runs at the first
advance; any data event the parser emits after feedBusboy started
pumping but before that moment reaches no listener, is never queued,
and never appears in the sequence: a run with such a pre-advance
emission list is identical to a run with none. -/
theorem pre_advance_emissions_never_observed (pre : List Emission)
    (sched : List (List Emission)) (h : ∀ e ∈ pre, e.isPlain = true) :
    preError pre = none ∧ genRunFull pre sched = genRunFull [] sched := by
  refine ⟨preError_plain pre h, ?_⟩
  show genRun sched ⟨[], false, preError pre⟩ [] = genRunFull [] sched
  rw [preError_plain pre h]
  rfl

/-- Witness for C10: a field and a limit emitted before the first
advance leave no trace in the run. -/
theorem pre_advance_emissions_never_observed_witness :
    preError [Emission.field "n" "v" sampleFieldInfo, Emission.partsLimit] = none
    ∧ genRunFull [Emission.field "n" "v" sampleFieldInfo, Emission.partsLimit]
        [[Emission.finish]]
      = genRunFull [] [[Emission.finish]] := by
  exact pre_advance_emissions_never_observed
    [Emission.field "n" "v" sampleFieldInfo, Emission.partsLimit]
    [[Emission.finish]] (by decide)

end BusboyAsync
